import Mathlib

/-!
Shallow embedding of the `unswap` crate: a page-granular pinned-memory
allocator (`src/impl_unix.rs`) and a generic owning container
(`src/lib.rs`, `UnswapArray<T>`), together with theorems settling the
specification claims about them.

Machine integers are modelled as `Nat` with explicit reduction modulo
`2 ^ 64` where overflow matters.  OS calls (`mmap`, `mlock`, `munmap`)
are modelled by an explicit environment `OsEnv` deciding their outcomes
and by a trace of the calls made.
-/

namespace Unswap

/-- Word size of the target: `usize` arithmetic is modulo this. -/
def USIZE : Nat := 2 ^ 64

/-- Largest value of `isize` — the limit for valid Rust layouts. -/
def isizeMax : Nat := 2 ^ 63 - 1

/-- Errors of the crate (`enum Error` in src/lib.rs): `AlignError` when
the size given was not properly aligned, `OsError` when a memory
allocation routine failed. -/
inductive Error where
  | AlignError
  | OsError
deriving DecidableEq, Repr

/-- One OS call made by the unix implementation.  An `mmap` call records
the requested size and its result (`none` models `MAP_FAILED`). -/
inductive OsCall where
  | mmap (size : Nat) (result : Option Nat)
  | mlock (addr : Nat) (size : Nat)
  | munmap (addr : Nat) (size : Nat)
deriving DecidableEq, Repr

/-- Environment deciding the outcomes of the OS calls: the result of an
`mmap` request (`none` = `MAP_FAILED`, `some a` = address `a`) and
whether `mlock` succeeds. -/
structure OsEnv where
  mmapResult : Option Nat
  mlockOk : Bool

/-- `UnixImpl::alloc_pages` from src/impl_unix.rs.  Returns the result of
the call together with the trace of OS calls it made:
the code first rejects sizes with `size & 0xFFF != 0` (`AlignError`,
before any OS call), then calls `mmap`; on `MAP_FAILED` it returns
`OsError`; otherwise it calls `mlock`, returns `OsError` when that fails
(without any further OS call), and returns the address on success. -/
def alloc_pages (env : OsEnv) (size : Nat) : Except Error Nat × List OsCall :=
  if size &&& 0xFFF ≠ 0 then
    (.error .AlignError, [])
  else
    match env.mmapResult with
    | none => (.error .OsError, [.mmap size none])
    | some pages =>
      if env.mlockOk then
        (.ok pages, [.mmap size (some pages), .mlock pages size])
      else
        (.error .OsError, [.mmap size (some pages), .mlock pages size])

/-- `UnixImpl::free_pages` from src/impl_unix.rs: a single `munmap`
call. -/
def free_pages (at_ : Nat) (size : Nat) : List OsCall :=
  [.munmap at_ size]

/-- The mappings (address, size) still held by the process after a trace
of OS calls: each successful `mmap` adds one, each `munmap` removes the
matching pair. -/
def heldAfter (calls : List OsCall) : List (Nat × Nat) :=
  calls.foldl
    (fun acc c =>
      match c with
      | .mmap size (some a) => acc ++ [(a, size)]
      | .mmap _ none => acc
      | .mlock _ _ => acc
      | .munmap a s => acc.filter (fun p => !(p == (a, s))))
    []

/-- Masking with `0xFFF` is reduction modulo the page size. -/
theorem and_fff_eq_mod (n : Nat) : n &&& 0xFFF = n % 4096 := by
  have h : (0xFFF : Nat) = 2 ^ 12 - 1 := by norm_num
  rw [h, Nat.and_pow_two_sub_one_eq_mod]

/-- `std::alloc::Layout::array::<T>(len)` for an element type of size
`sizeOfT` and alignment `alignOfT`: fails (`none`) when the total size
would exceed the layout limit `isize::MAX - (align - 1)`; otherwise the
layout size is `sizeOfT * len`. -/
def layoutArray (sizeOfT alignOfT len : Nat) : Option Nat :=
  if sizeOfT ≠ 0 ∧ len > (isizeMax - (alignOfT - 1)) / sizeOfT then
    none
  else
    some (sizeOfT * len)

/-- The size rounding in `UnswapArray::new` (src/lib.rs):
`(layout.size() + 0xFFF) & !0xFFF` in `usize` arithmetic.
`!0xFFF` on a 64-bit `usize` is `0xFFFFFFFFFFFFF000`. -/
def pageRound (x : Nat) : Nat :=
  ((x + 0xFFF) % USIZE) &&& 0xFFFFFFFFFFFFF000

/-- Model of `UnswapArray<T>` (src/lib.rs): the three fields `data`,
`len`, `size` of the Rust struct, plus `mem`, the contents of the `len`
typed slots of the exclusively owned region (`none` = uninitialized,
modelling `MaybeUninit`). -/
structure UnswapArray (T : Type) where
  data : Nat
  len : Nat
  size : Nat
  mem : List (Option T)
deriving DecidableEq, Repr

/-- The initialization loop of `UnswapArray::new`:
`for uninit in array.iter_mut() { uninit.write(value.clone()); }`.
Walks the slots left to right starting at slot index `i`, writing
`clone value` into each; returns the written slots together with the
trace of writes `(slot index, value written)` in temporal order. -/
def initLoopAux {T : Type} (clone : T → T) (value : T) (i : Nat) :
    List (Option T) → List (Option T) × List (Nat × T)
  | [] => ([], [])
  | _ :: rest =>
    let w := clone value
    let r := initLoopAux clone value (i + 1) rest
    (some w :: r.1, (i, w) :: r.2)

/-- Outcome of `UnswapArray::new`: the constructor either panics
(`unwrap` on the layout, `unimplemented!` on oversized alignment, or
`expect` on an allocation error) or returns the array.  Both outcomes
record the trace of OS calls made before that point.  There is no
error-value outcome: the Rust signature returns `Self`. -/
inductive NewResult (T : Type) where
  | panic (osTrace : List OsCall)
  | ok (arr : UnswapArray T) (osTrace : List OsCall)
deriving DecidableEq, Repr

/-- `UnswapArray::<T>::new(value, len)` from src/lib.rs, for an element
type of size `sizeOfT`, alignment `alignOfT` and clone operation
`clone`, run against the OS environment `env`:
1. `Layout::array::<T>(len).unwrap()` — panic when the layout is
   invalid;
2. `if layout.align() > 0x1000 { unimplemented!() }` — panic;
3. `size = (layout.size() + 0xFFF) & !0xFFF`;
4. `Impl::alloc_pages(size).expect(..)` — panic when it fails;
5. write `value.clone()` into each of the `len` slots, left to right;
6. return the struct `{ data, len, size }`. -/
def new {T : Type} (clone : T → T) (sizeOfT alignOfT : Nat) (value : T)
    (len : Nat) (env : OsEnv) : NewResult T :=
  match layoutArray sizeOfT alignOfT len with
  | none => .panic []
  | some layoutSize =>
    if alignOfT > 0x1000 then
      .panic []
    else
      match alloc_pages env (pageRound layoutSize) with
      | (.error _, tr) => .panic tr
      | (.ok data, tr) =>
        .ok ⟨data, len, pageRound layoutSize,
          (initLoopAux clone value 0 (List.replicate len none)).1⟩ tr

/-- `Drop for UnswapArray` (src/lib.rs): the destructor makes the single
call `Impl::free_pages(self.data, self.size)`. -/
def dropCalls {T : Type} (a : UnswapArray T) : List OsCall :=
  free_pages a.data a.size

/-- An element write `arr[i] = x` through the mutable view returned by
`DerefMut` (src/lib.rs): updates slot `i`, touching nothing else. -/
def setElem {T : Type} (a : UnswapArray T) (i : Nat) (x : T) : UnswapArray T :=
  { a with mem := a.mem.set i (some x) }

/-- The immutable view (`Deref` in src/lib.rs):
`slice::from_raw_parts(self.data as *const T, self.len)` — the base
address and the first `self.len` slots, regardless of `self.size`. -/
def derefView {T : Type} (a : UnswapArray T) : Nat × List (Option T) :=
  (a.data, a.mem.take a.len)

/-- The mutable view (`DerefMut` in src/lib.rs):
`slice::from_raw_parts_mut(self.data as *mut T, self.len)` — the same
address and slot count as the immutable view. -/
def derefMutView {T : Type} (a : UnswapArray T) : Nat × List (Option T) :=
  (a.data, a.mem.take a.len)

/-- The byte addresses of slot `i` of an array of elements of size
`sizeOfT` based at `data`: the half-open range starting at
`data + i * sizeOfT`. -/
def slotBytes (data sizeOfT i : Nat) : Finset Nat :=
  Finset.Ico (data + i * sizeOfT) (data + (i + 1) * sizeOfT)

/-- The byte addresses covered by the exposed views: `len` elements of
size `sizeOfT` starting at the base address. -/
def viewBytes (data sizeOfT len : Nat) : Finset Nat :=
  Finset.Ico data (data + len * sizeOfT)

/-- The slack bytes of the region: between the end of the last exposed
element and the end of the rounded reservation. -/
def slackBytes (data sizeOfT len size : Nat) : Finset Nat :=
  Finset.Ico (data + len * sizeOfT) (data + size)

/-- Lifecycle states of one container: not yet constructed, live
(allocated and initialized, holding the array), released. -/
inductive LifeState (T : Type) where
  | unallocated
  | allocated (arr : UnswapArray T)
  | released

/-- Lifecycle transitions of one container, for fixed construction
parameters: successful construction (`UnswapArray::new` returning the
array and making its OS calls), an element write through the mutable
view (no OS call), and drop (the destructor makes exactly the calls
`dropCalls`).  These are all the operations of the public surface that
change or end the container. -/
inductive Step {T : Type} (clone : T → T) (sizeOfT alignOfT : Nat)
    (value : T) (len : Nat) (env : OsEnv) :
    LifeState T → List OsCall → LifeState T → Prop where
  | construct (arr : UnswapArray T) (tr : List OsCall)
      (h : new clone sizeOfT alignOfT value len env = .ok arr tr) :
      Step clone sizeOfT alignOfT value len env .unallocated tr (.allocated arr)
  | write (arr : UnswapArray T) (i : Nat) (x : T) :
      Step clone sizeOfT alignOfT value len env
        (.allocated arr) [] (.allocated (setElem arr i x))
  | drop (arr : UnswapArray T) :
      Step clone sizeOfT alignOfT value len env
        (.allocated arr) (dropCalls arr) .released

/-- A sequence of lifecycle transitions, concatenating the OS traces. -/
inductive Steps {T : Type} (clone : T → T) (sizeOfT alignOfT : Nat)
    (value : T) (len : Nat) (env : OsEnv) :
    LifeState T → List OsCall → LifeState T → Prop where
  | refl (s : LifeState T) :
      Steps clone sizeOfT alignOfT value len env s [] s
  | tail {s1 s2 s3 : LifeState T} {tr1 tr2 : List OsCall} :
      Steps clone sizeOfT alignOfT value len env s1 tr1 s2 →
      Step clone sizeOfT alignOfT value len env s2 tr2 s3 →
      Steps clone sizeOfT alignOfT value len env s1 (tr1 ++ tr2) s3

/-- Whether an OS call is a release (`munmap`). -/
def isFree : OsCall → Bool
  | .munmap _ _ => true
  | _ => false

/-- Number of release (`munmap`) calls in a trace. -/
def freeCount (tr : List OsCall) : Nat :=
  (tr.filter isFree).length

/-- Masking a 64-bit value with `!0xFFF` clears the low 12 bits: it is
rounding down to a multiple of the page size. -/
theorem and_mask_eq_div_mul (y : Nat) (hy : y < 2 ^ 64) :
    y &&& 0xFFFFFFFFFFFFF000 = y / 4096 * 4096 := by
  have hmask : (0xFFFFFFFFFFFFF000 : Nat) = (2 ^ 52 - 1) <<< 12 := by
    rw [Nat.shiftLeft_eq]; norm_num
  have hdm : y / 4096 * 4096 = (y >>> 12) <<< 12 := by
    rw [Nat.shiftRight_eq_div_pow, Nat.shiftLeft_eq]
  rw [hmask, hdm]
  apply Nat.eq_of_testBit_eq
  intro i
  rw [Nat.testBit_and, Nat.testBit_shiftLeft, Nat.testBit_shiftLeft,
    Nat.testBit_two_pow_sub_one, Nat.testBit_shiftRight]
  by_cases h12 : 12 ≤ i
  · by_cases h64 : i < 64
    · have hlt : i - 12 < 52 := by omega
      have h1 : 12 + (i - 12) = i := by omega
      simp [h12, hlt, h1]
    · have hbit : y.testBit i = false :=
        Nat.testBit_lt_two_pow
          (lt_of_lt_of_le hy (Nat.pow_le_pow_right (by norm_num) (by omega)))
      have hge : ¬(i - 12 < 52) := by omega
      have h1 : 12 + (i - 12) = i := by omega
      simp [h12, hge, h1, hbit]
  · simp [h12]

/-- `pageRound x` for `x` within the layout limit is
`(x + 4095) / 4096 * 4096`, with no `usize` overflow. -/
theorem pageRound_eq (x : Nat) (hx : x ≤ isizeMax) :
    pageRound x = (x + 4095) / 4096 * 4096 := by
  have h1 : x + 0xFFF < 2 ^ 64 := by
    simp only [isizeMax] at hx
    omega
  have h2 : (x + 0xFFF) % USIZE = x + 0xFFF := Nat.mod_eq_of_lt h1
  simp only [pageRound, h2]
  exact and_mask_eq_div_mul _ h1

/-- The initialization loop writes `clone value` into every slot. -/
theorem initLoopAux_fst {T : Type} (clone : T → T) (value : T) (i : Nat)
    (mem : List (Option T)) :
    (initLoopAux clone value i mem).1 =
      List.replicate mem.length (some (clone value)) := by
  induction mem generalizing i with
  | nil => rfl
  | cons hd tl ih =>
    simp [initLoopAux, ih, List.replicate_succ]

/-- The write trace of the initialization loop started at slot `i`: one
write of `clone value` per slot, at indices `i, i+1, ...` in temporal
order — slot order, left to right. -/
theorem initLoopAux_snd {T : Type} (clone : T → T) (value : T) (i : Nat)
    (mem : List (Option T)) :
    (initLoopAux clone value i mem).2 =
      (List.range mem.length).map (fun k => (i + k, clone value)) := by
  induction mem generalizing i with
  | nil => rfl
  | cons hd tl ih =>
    simp only [initLoopAux, ih, List.length_cons, List.range_succ_eq_map,
      List.map_cons, List.map_map, Nat.add_zero]
    congr 1
    apply List.map_congr_left
    intro k _
    simp only [Function.comp_apply, Prod.mk.injEq, Nat.succ_eq_add_one]
    exact ⟨by omega, trivial⟩

/-- Inversion of a successful `layoutArray`: the size is
`sizeOfT * len` and it is within the layout limit. -/
theorem layoutArray_some_inv {sizeOfT alignOfT len L : Nat}
    (h : layoutArray sizeOfT alignOfT len = some L) :
    L = sizeOfT * len ∧ L ≤ isizeMax := by
  unfold layoutArray at h
  by_cases hc : sizeOfT ≠ 0 ∧ len > (isizeMax - (alignOfT - 1)) / sizeOfT
  · rw [if_pos hc] at h
    exact absurd h (by simp)
  · rw [if_neg hc] at h
    have hL : L = sizeOfT * len := by
      injection h with h2
      exact h2.symm
    refine ⟨hL, ?_⟩
    subst hL
    by_cases hs : sizeOfT = 0
    · simp [hs, isizeMax]
    · have hlen : len ≤ (isizeMax - (alignOfT - 1)) / sizeOfT := by
        rcases not_and_or.mp hc with h1 | h1
        · exact absurd hs (by simpa using h1)
        · omega
      have := (Nat.le_div_iff_mul_le (Nat.pos_of_ne_zero hs)).mp hlen
      calc sizeOfT * len = len * sizeOfT := Nat.mul_comm _ _
        _ ≤ isizeMax - (alignOfT - 1) := this
        _ ≤ isizeMax := Nat.sub_le _ _

/-- The rounded size always passes the alignment check of
`alloc_pages`. -/
theorem pageRound_and_fff (x : Nat) : pageRound x &&& 0xFFF = 0 := by
  rw [and_fff_eq_mod]
  unfold pageRound USIZE
  rw [and_mask_eq_div_mul _ (Nat.mod_lt _ (by norm_num))]
  omega

/-- Inversion of a successful `alloc_pages` call: `mmap` returned the
address, `mlock` succeeded, and the trace is those two calls. -/
theorem alloc_pages_ok_inv {env : OsEnv} {size pages : Nat}
    {tr : List OsCall}
    (h : alloc_pages env size = (.ok pages, tr)) :
    env.mmapResult = some pages ∧ env.mlockOk = true ∧
    tr = [.mmap size (some pages), .mlock pages size] := by
  unfold alloc_pages at h
  split at h
  · simp at h
  · split at h
    · simp at h
    · rename_i p hm
      split at h
      · rename_i hk
        simp only [Prod.mk.injEq, Except.ok.injEq] at h
        obtain ⟨h1, h2⟩ := h
        subst h1
        exact ⟨hm, hk, h2.symm⟩
      · simp at h

/-- Full inversion of a successful construction: what the fields of the
returned array and the OS trace must be. -/
theorem new_ok_inv {T : Type} {clone : T → T} {sizeOfT alignOfT : Nat}
    {value : T} {len : Nat} {env : OsEnv} {arr : UnswapArray T}
    {tr : List OsCall}
    (h : new clone sizeOfT alignOfT value len env = .ok arr tr) :
    layoutArray sizeOfT alignOfT len = some (sizeOfT * len) ∧
    sizeOfT * len ≤ isizeMax ∧
    alignOfT ≤ 0x1000 ∧
    env.mmapResult = some arr.data ∧
    env.mlockOk = true ∧
    arr.len = len ∧
    arr.size = pageRound (sizeOfT * len) ∧
    arr.mem = List.replicate len (some (clone value)) ∧
    tr = [.mmap arr.size (some arr.data), .mlock arr.data arr.size] := by
  unfold new at h
  split at h
  · simp at h
  · rename_i L hl
    obtain ⟨hL, hLmax⟩ := layoutArray_some_inv hl
    subst hL
    split at h
    · simp at h
    · rename_i ha
      split at h
      · simp at h
      · rename_i data tr2 hap
        simp only [NewResult.ok.injEq] at h
        obtain ⟨harr, htr⟩ := h
        subst harr
        subst htr
        obtain ⟨hm, hk, htr2⟩ := alloc_pages_ok_inv hap
        refine ⟨hl, hLmax, Nat.le_of_not_lt ha, hm, hk, rfl, rfl, ?_, ?_⟩
        · simp [initLoopAux_fst]
        · simp [htr2]

/-- C1: the claim states that when `mlock` fails after a successful
`mmap`, `alloc_pages` unmaps the mapping before returning `OsError`, so
that no OS reservation remains held on an error return.  The code has no
`munmap` on that path: run at size 4096 with `mmap` succeeding at
address 65536 and `mlock` failing, `alloc_pages` returns `OsError`, its
OS trace contains no `munmap` call at all, and the mapping
`(65536, 4096)` is still held after the error return. -/
theorem C1_pin_failure_keeps_reservation :
    (alloc_pages ⟨some 65536, false⟩ 4096).1 = Except.error Error.OsError ∧
    (alloc_pages ⟨some 65536, false⟩ 4096).2.all
      (fun c => !(isFree c)) = true ∧
    heldAfter (alloc_pages ⟨some 65536, false⟩ 4096).2 = [(65536, 4096)] :=
  ⟨rfl, rfl, rfl⟩

/-- C2 counterexample: at size 0 — not a nonzero multiple of 4096 — the
claim requires `AlignError` with no OS call; the check
`size & 0xFFF != 0` passes for 0, so the code makes an `mmap` OS call
(here failing, as a zero-length `mmap` does) and returns `OsError`, not
`AlignError`. -/
theorem C2_size_zero_not_align_error :
    (alloc_pages ⟨none, true⟩ 0).2 = [OsCall.mmap 0 none] ∧
    (alloc_pages ⟨none, true⟩ 0).1 = Except.error Error.OsError ∧
    Error.OsError ≠ Error.AlignError :=
  ⟨rfl, rfl, by decide⟩

/-- C2 (amended): for every size that is not a multiple of 4096,
`alloc_pages` returns `AlignError` and makes no OS call; for every size
that is a multiple of 4096 — zero included — it does not return
`AlignError`. -/
theorem C2_align_error_characterization (env : OsEnv) (size : Nat) :
    (size % 4096 ≠ 0 →
      alloc_pages env size = (Except.error Error.AlignError, [])) ∧
    (size % 4096 = 0 →
      (alloc_pages env size).1 ≠ Except.error Error.AlignError) := by
  constructor
  · intro hne
    unfold alloc_pages
    rw [if_pos (by rw [and_fff_eq_mod]; exact hne)]
  · intro he
    unfold alloc_pages
    rw [if_neg (by rw [and_fff_eq_mod]; simp [he])]
    cases env.mmapResult with
    | none => simp
    | some p => cases env.mlockOk <;> simp

/-- Witness for C2: size 12 is not a multiple of 4096 and is rejected
with `AlignError` and an empty OS trace. -/
theorem C2_align_error_characterization_witness :
    12 % 4096 ≠ 0 ∧
    alloc_pages ⟨none, true⟩ 12 = (Except.error Error.AlignError, []) :=
  ⟨by decide, (C2_align_error_characterization ⟨none, true⟩ 12).1 (by decide)⟩

/-- C4: when the Page Provider reservation fails during construction,
`new` panics — the process aborts with the OS trace made so far — rather
than returning control or an error value; the result type of `new` has
no error-value outcome at all. -/
theorem C4_new_panics_on_alloc_error {T : Type} (clone : T → T)
    (sizeOfT alignOfT : Nat) (value : T) (len : Nat) (env : OsEnv)
    (layoutSize : Nat) (e : Error) (tr : List OsCall)
    (hl : layoutArray sizeOfT alignOfT len = some layoutSize)
    (ha : alignOfT ≤ 0x1000)
    (he : alloc_pages env (pageRound layoutSize) = (Except.error e, tr)) :
    new clone sizeOfT alignOfT value len env = NewResult.panic tr := by
  have ha2 : ¬(alignOfT > 0x1000) := by omega
  simp [new, hl, ha2, he]

/-- Witness for C4: element size 8, alignment 8, one element, `mmap`
failing — construction panics with the failed `mmap` in its trace. -/
theorem C4_new_panics_on_alloc_error_witness :
    layoutArray 8 8 1 = some 8 ∧
    alloc_pages ⟨none, true⟩ (pageRound 8) =
      (Except.error Error.OsError, [OsCall.mmap 4096 none]) ∧
    new (id : Nat → Nat) 8 8 0 1 ⟨none, true⟩ =
      NewResult.panic [OsCall.mmap 4096 none] :=
  ⟨by decide, rfl,
    C4_new_panics_on_alloc_error id 8 8 0 1 ⟨none, true⟩ 8 Error.OsError
      [OsCall.mmap 4096 none] (by decide) (by decide) rfl⟩

/-- C7: for an element type whose alignment exceeds the page size,
`new` panics with an empty OS trace — it fails fast, before any
allocation, and never constructs a container. -/
theorem C7_oversized_align_panics {T : Type} (clone : T → T)
    (sizeOfT alignOfT : Nat) (value : T) (len : Nat) (env : OsEnv)
    (ha : alignOfT > 0x1000) :
    new clone sizeOfT alignOfT value len env = NewResult.panic [] := by
  unfold new
  cases hl : layoutArray sizeOfT alignOfT len with
  | none => rfl
  | some L => simp [ha]

/-- Witness for C7: alignment 8192 > 4096 panics with no OS call, even
with an OS that would satisfy every request. -/
theorem C7_oversized_align_panics_witness :
    8192 > 0x1000 ∧
    new (id : Nat → Nat) 8192 8192 0 1 ⟨some 65536, true⟩ =
      NewResult.panic [] :=
  ⟨by decide,
    C7_oversized_align_panics id 8192 8192 0 1 ⟨some 65536, true⟩ (by decide)⟩

/-- C9: when `len * size_of(T)` exceeds the layout limit
(`isize::MAX` less the alignment slack), the layout computation fails,
so `new` panics via the `unwrap` with an empty OS trace — before any
Page Provider call; no container with a truncated size is ever
constructed. -/
theorem C9_layout_overflow_panics {T : Type} (clone : T → T)
    (sizeOfT alignOfT : Nat) (value : T) (len : Nat) (env : OsEnv)
    (hs : sizeOfT ≠ 0)
    (hover : len * sizeOfT > isizeMax - (alignOfT - 1)) :
    new clone sizeOfT alignOfT value len env = NewResult.panic [] := by
  have hl : layoutArray sizeOfT alignOfT len = none := by
    unfold layoutArray
    rw [if_pos]
    refine ⟨hs, ?_⟩
    by_contra hle
    have := (Nat.le_div_iff_mul_le (Nat.pos_of_ne_zero hs)).mp
      (Nat.le_of_not_lt hle)
    omega
  simp [new, hl]

/-- Witness for C9: `2 ^ 61` elements of size 8 need `2 ^ 64` bytes,
beyond the layout limit — construction panics with no OS call. -/
theorem C9_layout_overflow_panics_witness :
    (8 : Nat) ≠ 0 ∧
    2305843009213693952 * 8 > isizeMax - (8 - 1) ∧
    new (id : Nat → Nat) 8 8 0 2305843009213693952 ⟨some 65536, true⟩ =
      NewResult.panic [] :=
  ⟨by decide, by decide,
    C9_layout_overflow_panics id 8 8 0 2305843009213693952 ⟨some 65536, true⟩
      (by decide) (by decide)⟩

/-- C3: a successful construction for `len > 0` elements, with a clone
operation that duplicates the prototype, yields a view of exactly `len`
elements, each equal to the prototype; the initialization loop wrote one
clone of the prototype into each slot in slot order, left to right (the
write trace is exactly `(0, v), (1, v), ..., (len-1, v)`); and distinct
slots occupy disjoint backing storage. -/
theorem C3_construct_fills_every_slot {T : Type} (clone : T → T)
    (sizeOfT alignOfT : Nat) (value : T) (len : Nat) (env : OsEnv)
    (arr : UnswapArray T) (tr : List OsCall)
    (hclone : clone value = value) (_hlen : 0 < len)
    (h : new clone sizeOfT alignOfT value len env = .ok arr tr) :
    (derefView arr).2.length = len ∧
    (∀ i, i < len → (derefView arr).2[i]? = some (some value)) ∧
    (initLoopAux clone value 0 (List.replicate len none)).2 =
      (List.range len).map (fun k => (k, value)) ∧
    (∀ i j, i < len → j < len → i ≠ j →
      Disjoint (slotBytes arr.data sizeOfT i) (slotBytes arr.data sizeOfT j)) := by
  obtain ⟨hl, hmax, ha, hm, hk, hlen2, hsize, hmem, htr⟩ := new_ok_inv h
  have hv : (derefView arr).2 = List.replicate len (some value) := by
    simp [derefView, hmem, hlen2, hclone]
  refine ⟨?_, ?_, ?_, ?_⟩
  · simp [hv]
  · intro i hi
    simp [hv, List.getElem?_replicate, hi]
  · rw [initLoopAux_snd]
    simp [hclone]
  · intro i j hi hj hij
    unfold slotBytes
    rw [Finset.disjoint_left]
    intro b hb hb2
    simp only [Finset.mem_Ico] at hb hb2
    rcases Nat.lt_or_ge i j with hlt | hge
    · have hstep : (i + 1) * sizeOfT ≤ j * sizeOfT :=
        Nat.mul_le_mul_right _ (by omega)
      omega
    · have hgt : j < i := by omega
      have hstep : (j + 1) * sizeOfT ≤ i * sizeOfT :=
        Nat.mul_le_mul_right _ (by omega)
      omega

/-- Witness for C3: ten elements seeded with 0 — element 3 of the view
reads back 0. -/
theorem C3_construct_fills_every_slot_witness :
    (derefView (UnswapArray.mk 65536 10 4096
        (List.replicate 10 (some (0 : Nat))))).2[3]? = some (some 0) :=
  (C3_construct_fills_every_slot id 8 8 0 10 ⟨some 65536, true⟩
    ⟨65536, 10, 4096, List.replicate 10 (some 0)⟩
    [.mmap 4096 (some 65536), .mlock 65536 4096]
    rfl (by decide) (by decide)).2.1 3 (by decide)

/-- C5: for every successful construction, the recorded reservation size
is a multiple of 4096, at least `len * size_of(T)`, at most
`len * size_of(T) + 4095` — and is below every other page multiple
covering the data, i.e. it is the smallest such multiple. -/
theorem C5_size_smallest_page_multiple {T : Type} (clone : T → T)
    (sizeOfT alignOfT : Nat) (value : T) (len : Nat) (env : OsEnv)
    (arr : UnswapArray T) (tr : List OsCall)
    (h : new clone sizeOfT alignOfT value len env = .ok arr tr) :
    len * sizeOfT ≤ arr.size ∧
    arr.size % 4096 = 0 ∧
    arr.size ≤ len * sizeOfT + 4095 ∧
    (∀ m, m % 4096 = 0 → len * sizeOfT ≤ m → arr.size ≤ m) := by
  obtain ⟨hl, hmax, ha, hm, hk, hlen2, hsize, hmem, htr⟩ := new_ok_inv h
  have hx : arr.size = (len * sizeOfT + 4095) / 4096 * 4096 := by
    rw [hsize, pageRound_eq _ hmax, Nat.mul_comm sizeOfT len]
  generalize hq : len * sizeOfT = x at hx ⊢
  refine ⟨by omega, by omega, by omega, ?_⟩
  intro m hm4 hxm
  omega

/-- Witness for C5: one element of size 1 — the recorded size is 4096,
the smallest page multiple covering one byte. -/
theorem C5_size_smallest_page_multiple_witness :
    1 * 1 ≤ (UnswapArray.mk 65536 1 4096 [some (0 : Nat)]).size ∧
    (UnswapArray.mk 65536 1 4096 [some (0 : Nat)]).size % 4096 = 0 ∧
    (UnswapArray.mk 65536 1 4096 [some (0 : Nat)]).size ≤ 1 * 1 + 4095 ∧
    (∀ m, m % 4096 = 0 → 1 * 1 ≤ m →
      (UnswapArray.mk 65536 1 4096 [some (0 : Nat)]).size ≤ m) :=
  C5_size_smallest_page_multiple id 1 1 0 1 ⟨some 65536, true⟩
    ⟨65536, 1, 4096, [some 0]⟩ [.mmap 4096 (some 65536), .mlock 65536 4096]
    rfl

/-- C8: on a constructed array, writing element `i` through the mutable
view leaves the value of every other element `j` observed through the
view unchanged. -/
theorem C8_write_is_frame_local {T : Type} (clone : T → T)
    (sizeOfT alignOfT : Nat) (value : T) (len : Nat) (env : OsEnv)
    (arr : UnswapArray T) (tr : List OsCall)
    (h : new clone sizeOfT alignOfT value len env = .ok arr tr)
    (i j : Nat) (x : T) (_hi : i < len) (hj : j < len) (hij : i ≠ j) :
    (derefView (setElem arr i x)).2[j]? = (derefView arr).2[j]? ∧
    (derefMutView (setElem arr i x)).2[j]? = (derefMutView arr).2[j]? := by
  obtain ⟨hl, hmax, ha, hm, hk, hlen2, hsize, hmem, htr⟩ := new_ok_inv h
  have key : ((arr.mem.set i (some x)).take arr.len)[j]? =
      (arr.mem.take arr.len)[j]? := by
    have hjl : j < arr.len := by omega
    rw [List.getElem?_take_of_lt hjl, List.getElem?_take_of_lt hjl,
      List.getElem?_set_ne hij]
  exact ⟨key, key⟩

/-- Witness for C8: in a two-element array, writing 42 at index 0 leaves
index 1 unchanged. -/
theorem C8_write_is_frame_local_witness :
    (derefView (setElem (UnswapArray.mk 65536 2 4096
        (List.replicate 2 (some (0 : Nat)))) 0 42)).2[1]? =
      (derefView (UnswapArray.mk 65536 2 4096
        (List.replicate 2 (some (0 : Nat))))).2[1]? ∧
    (derefMutView (setElem (UnswapArray.mk 65536 2 4096
        (List.replicate 2 (some (0 : Nat)))) 0 42)).2[1]? =
      (derefMutView (UnswapArray.mk 65536 2 4096
        (List.replicate 2 (some (0 : Nat))))).2[1]? :=
  C8_write_is_frame_local id 8 8 0 2 ⟨some 65536, true⟩
    ⟨65536, 2, 4096, List.replicate 2 (some 0)⟩
    [.mmap 4096 (some 65536), .mlock 65536 4096]
    rfl 0 1 42 (by decide) (by decide) (by decide)

/-- C10: on a constructed array, the immutable and the mutable view
agree, start at the recorded base address, and expose exactly `len`
elements; the view does not depend on the rounded `size` field; the
slack bytes between `len * size_of(T)` and the rounded size are disjoint
from the bytes of the view; and element writes change none of the
`data`, `len`, `size` fields. -/
theorem C10_views_exact_and_fields_stable {T : Type} (clone : T → T)
    (sizeOfT alignOfT : Nat) (value : T) (len : Nat) (env : OsEnv)
    (arr : UnswapArray T) (tr : List OsCall)
    (h : new clone sizeOfT alignOfT value len env = .ok arr tr) :
    derefView arr = derefMutView arr ∧
    (derefView arr).1 = arr.data ∧
    (derefView arr).2.length = len ∧
    (∀ size2, derefView { arr with size := size2 } = derefView arr) ∧
    Disjoint (viewBytes arr.data sizeOfT len)
      (slackBytes arr.data sizeOfT len arr.size) ∧
    (∀ i x, (setElem arr i x).data = arr.data ∧
      (setElem arr i x).len = arr.len ∧
      (setElem arr i x).size = arr.size) := by
  obtain ⟨hl, hmax, ha, hm, hk, hlen2, hsize, hmem, htr⟩ := new_ok_inv h
  refine ⟨rfl, rfl, ?_, fun _ => rfl, ?_, fun i x => ⟨rfl, rfl, rfl⟩⟩
  · simp [derefView, hmem, hlen2]
  · unfold viewBytes slackBytes
    exact Finset.Ico_disjoint_Ico_consecutive _ _ _

/-- Witness for C10 at a concrete two-element construction. -/
theorem C10_views_exact_and_fields_stable_witness :
    derefView (UnswapArray.mk 65536 2 4096
        (List.replicate 2 (some (0 : Nat)))) =
      derefMutView (UnswapArray.mk 65536 2 4096
        (List.replicate 2 (some (0 : Nat)))) ∧
    (derefView (UnswapArray.mk 65536 2 4096
        (List.replicate 2 (some (0 : Nat))))).1 = 65536 ∧
    (derefView (UnswapArray.mk 65536 2 4096
        (List.replicate 2 (some (0 : Nat))))).2.length = 2 ∧
    (∀ size2, derefView { UnswapArray.mk 65536 2 4096
        (List.replicate 2 (some (0 : Nat))) with size := size2 } =
      derefView (UnswapArray.mk 65536 2 4096
        (List.replicate 2 (some (0 : Nat))))) ∧
    Disjoint (viewBytes 65536 8 2) (slackBytes 65536 8 2 4096) ∧
    (∀ i x, (setElem (UnswapArray.mk 65536 2 4096
          (List.replicate 2 (some (0 : Nat)))) i x).data = 65536 ∧
      (setElem (UnswapArray.mk 65536 2 4096
          (List.replicate 2 (some (0 : Nat)))) i x).len = 2 ∧
      (setElem (UnswapArray.mk 65536 2 4096
          (List.replicate 2 (some (0 : Nat)))) i x).size = 4096) :=
  C10_views_exact_and_fields_stable id 8 8 0 2 ⟨some 65536, true⟩
    ⟨65536, 2, 4096, List.replicate 2 (some 0)⟩
    [.mmap 4096 (some 65536), .mlock 65536 4096] rfl

/-- Characterization of every lifecycle run started at `unallocated`:
it is still unallocated with no OS calls; or it is live, reached by one
successful construction followed by element writes that preserve the
recorded `data`, `len`, `size`, with no release call yet; or it is
released, with trace exactly the construction trace followed by one
`munmap` of the recorded address and size. -/
theorem steps_from_unallocated {T : Type} {clone : T → T}
    {sizeOfT alignOfT : Nat} {value : T} {len : Nat} {env : OsEnv}
    {s1 s2 : LifeState T} {tr : List OsCall}
    (h : Steps clone sizeOfT alignOfT value len env s1 tr s2)
    (hs1 : s1 = .unallocated) :
    (s2 = .unallocated ∧ tr = []) ∨
    (∃ arr arr0, s2 = .allocated arr ∧
      new clone sizeOfT alignOfT value len env = .ok arr0 tr ∧
      arr.data = arr0.data ∧ arr.len = arr0.len ∧ arr.size = arr0.size ∧
      freeCount tr = 0) ∨
    (∃ arr0 ctr, s2 = .released ∧
      new clone sizeOfT alignOfT value len env = .ok arr0 ctr ∧
      tr = ctr ++ [OsCall.munmap arr0.data arr0.size] ∧
      freeCount ctr = 0) := by
  revert hs1
  induction h with
  | refl =>
    intro hs1
    subst hs1
    exact .inl ⟨rfl, rfl⟩
  | tail hs hstep ih =>
    intro hs1
    subst hs1
    rcases ih rfl with ⟨h2, htr⟩ | ⟨arr, arr0, h2, hnew, hd, hl, hsz, hfc⟩ |
        ⟨arr0, ctr, h2, hnew, htr, hfc⟩
    · subst h2
      subst htr
      cases hstep with
      | construct arr tr hnew =>
        refine .inr (.inl ⟨arr, arr, rfl, by simpa using hnew, rfl, rfl, rfl, ?_⟩)
        obtain ⟨-, -, -, -, -, -, -, -, htr⟩ := new_ok_inv hnew
        subst htr
        simp [freeCount, isFree]
    · subst h2
      cases hstep with
      | write arr1 i x =>
        refine .inr (.inl ⟨setElem arr i x, arr0, rfl, by simpa using hnew,
          hd, hl, hsz, by simpa [freeCount] using hfc⟩)
      | drop arr1 =>
        refine .inr (.inr ⟨arr0, _, rfl, hnew, ?_, hfc⟩)
        simp [dropCalls, free_pages, hd, hsz]
    · subst h2
      cases hstep

/-- C6: over any complete lifecycle of a container — from unallocated
through successful construction and any number of element writes to the
drop — the Page Provider release (`free_pages`, one `munmap`) is invoked
exactly once, with exactly the address and the rounded size recorded at
construction; and the released state is terminal: no lifecycle
transition leaves it. -/
theorem C6_release_exactly_once {T : Type} (clone : T → T)
    (sizeOfT alignOfT : Nat) (value : T) (len : Nat) (env : OsEnv)
    (tr : List OsCall)
    (h : Steps clone sizeOfT alignOfT value len env .unallocated tr .released) :
    (∃ arr0 ctr, new clone sizeOfT alignOfT value len env = .ok arr0 ctr ∧
      tr = ctr ++ free_pages arr0.data arr0.size ∧
      freeCount ctr = 0 ∧ freeCount tr = 1) ∧
    (∀ (tr2 : List OsCall) (st : LifeState T),
      ¬ Step clone sizeOfT alignOfT value len env .released tr2 st) := by
  constructor
  · rcases steps_from_unallocated h rfl with ⟨hc, -⟩ | ⟨_, _, hc, -⟩ |
        ⟨arr0, ctr, -, hnew, htr, hfc⟩
    · exact absurd hc (by simp)
    · exact absurd hc (by simp)
    · refine ⟨arr0, ctr, hnew, htr, hfc, ?_⟩
      subst htr
      simp only [freeCount, List.filter_append, List.length_append] at hfc ⊢
      simp [hfc, free_pages, isFree]
  · intro tr2 st hstep
    cases hstep

/-- Witness for C6: a concrete lifecycle — construct one element, drop —
makes exactly one `munmap`, of the constructed address 65536 and rounded
size 4096, and no transition leaves the released state. -/
theorem C6_release_exactly_once_witness :
    (∃ arr0 ctr,
      new (id : Nat → Nat) 8 8 0 1 ⟨some 65536, true⟩ = .ok arr0 ctr ∧
      [OsCall.mmap 4096 (some 65536), OsCall.mlock 65536 4096,
        OsCall.munmap 65536 4096] = ctr ++ free_pages arr0.data arr0.size ∧
      freeCount ctr = 0 ∧
      freeCount [OsCall.mmap 4096 (some 65536), OsCall.mlock 65536 4096,
        OsCall.munmap 65536 4096] = 1) ∧
    (∀ (tr2 : List OsCall) (st : LifeState Nat),
      ¬ Step (id : Nat → Nat) 8 8 0 1 ⟨some 65536, true⟩ .released tr2 st) := by
  have hnew : new (id : Nat → Nat) 8 8 0 1 ⟨some 65536, true⟩ =
      .ok ⟨65536, 1, 4096, [some 0]⟩
        [.mmap 4096 (some 65536), .mlock 65536 4096] := by decide
  exact C6_release_exactly_once id 8 8 0 1 ⟨some 65536, true⟩ _
    (Steps.tail
      (Steps.tail (Steps.refl _) (Step.construct _ _ hnew))
      (Step.drop _))

end Unswap
